import Mathlib

/-!
Verification of the bounded-concurrency task queue and the media-upload
pipeline of the repository.

`TQ` models `TaskQueue` from `src/shopifyService.ts` (the `taskQueue`
module): `add` pushes a queue item and calls `runNext`; `runNext` starts
the head of the queue when the number of running tasks is below the
concurrency limit; when a running task settles, its promise is resolved
or rejected, the running counter is decremented and `runNext` is called
again.

Tasks are identified by the order of submission: the `n`-th call to `add`
submits task id `n`.  The JS `running` counter is the length of
`runningTasks`; `started` records the ids in the order `runNext` dequeued
them; `settled` records, in settlement order, each id together with the
boolean outcome delivered to its promise (`true` = resolved via the task's
`.then`, `false` = rejected via `.catch`).
-/

namespace TQ

open List

structure QState where
  concurrency : Nat
  queue : List Nat
  runningTasks : List Nat
  started : List Nat
  settled : List (Nat × Bool)
  nextId : Nat
deriving Repr, DecidableEq

/-- `runNext` from `TaskQueue`: if `running < concurrency` and the queue is
non-empty, shift the head of the queue, increment `running` and start the
task. -/
def runNext (s : QState) : QState :=
  if s.runningTasks.length < s.concurrency then
    match s.queue with
    | [] => s
    | id :: rest =>
      { s with queue := rest
               runningTasks := s.runningTasks ++ [id]
               started := s.started ++ [id] }
  else s

/-- `add` from `TaskQueue`: push a fresh queue item, then `runNext`. -/
def add (s : QState) : QState :=
  runNext { s with queue := s.queue ++ [s.nextId], nextId := s.nextId + 1 }

/-- Settlement of a running task `id` with outcome `ok`: the promise is
resolved (`ok = true`) or rejected (`ok = false`), then the `finally`
handler decrements `running` and calls `runNext`.  Only a currently
running task can settle. -/
def complete (s : QState) (id : Nat) (ok : Bool) : Option QState :=
  if id ∈ s.runningTasks then
    some (runNext { s with runningTasks := s.runningTasks.erase id
                           settled := s.settled ++ [(id, ok)] })
  else none

inductive Event where
  | add : Event
  | complete : Nat → Bool → Event
deriving Repr, DecidableEq

def step (s : QState) : Event → Option QState
  | .add => some (add s)
  | .complete id ok => complete s id ok

def run (s : QState) : List Event → Option QState
  | [] => some s
  | e :: es => (step s e).bind (fun s1 => run s1 es)

def init (n : Nat) : QState := ⟨n, [], [], [], [], 0⟩

/-- The inductive invariant of the queue: the concurrency limit is the
constructor argument, the running count never exceeds it, the started ids
followed by the still-queued ids are exactly the submitted ids in
submission order, and the started ids are split between running and
settled. -/
def Inv (n : Nat) (s : QState) : Prop :=
  s.concurrency = n ∧
  s.runningTasks.length ≤ n ∧
  s.started ++ s.queue = List.range s.nextId ∧
  s.runningTasks ++ s.settled.map Prod.fst ~ s.started

theorem inv_runNext {n : Nat} {s : QState} (h : Inv n s) : Inv n (runNext s) := by
  obtain ⟨h1, h2, h3, h4⟩ := h
  unfold runNext
  split
  · rename_i hlt
    match hq : s.queue with
    | [] => exact ⟨h1, h2, by simpa [hq] using h3, h4⟩
    | id :: rest =>
      refine ⟨h1, ?_, ?_, ?_⟩
      · simpa using Nat.succ_le_of_lt (h1 ▸ hlt)
      · simpa [List.append_assoc, hq] using h3
      · calc (s.runningTasks ++ [id]) ++ s.settled.map Prod.fst
            = s.runningTasks ++ ([id] ++ s.settled.map Prod.fst) := by
              simp [List.append_assoc]
          _ ~ s.runningTasks ++ (s.settled.map Prod.fst ++ [id]) :=
              (List.perm_append_comm).append_left _
          _ = (s.runningTasks ++ s.settled.map Prod.fst) ++ [id] := by
              simp [List.append_assoc]
          _ ~ s.started ++ [id] := h4.append_right _
  · exact ⟨h1, h2, h3, h4⟩

theorem inv_add {n : Nat} {s : QState} (h : Inv n s) : Inv n (add s) := by
  obtain ⟨h1, h2, h3, h4⟩ := h
  refine inv_runNext ⟨h1, h2, ?_, h4⟩
  simp only [← List.append_assoc, h3, List.range_succ]

theorem inv_complete {n : Nat} {s s1 : QState} {id : Nat} {ok : Bool}
    (h : Inv n s) (hc : complete s id ok = some s1) : Inv n s1 := by
  obtain ⟨h1, h2, h3, h4⟩ := h
  unfold complete at hc
  split at hc
  · rename_i hid
    cases hc
    refine inv_runNext ⟨h1, ?_, h3, ?_⟩
    · exact Nat.le_trans (List.erase_sublist id s.runningTasks).length_le h2
    · have h0 : s.runningTasks ~ id :: s.runningTasks.erase id :=
        List.perm_cons_erase hid
      calc s.runningTasks.erase id ++ (s.settled ++ [(id, ok)]).map Prod.fst
          = (s.runningTasks.erase id ++ s.settled.map Prod.fst) ++ [id] := by
            simp [List.append_assoc]
        _ ~ [id] ++ (s.runningTasks.erase id ++ s.settled.map Prod.fst) :=
            List.perm_append_comm
        _ = (id :: s.runningTasks.erase id) ++ s.settled.map Prod.fst := by simp
        _ ~ s.runningTasks ++ s.settled.map Prod.fst := (h0.append_right _).symm
        _ ~ s.started := h4
  · cases hc

theorem inv_step {n : Nat} {s s1 : QState} {e : Event}
    (h : Inv n s) (hs : step s e = some s1) : Inv n s1 := by
  cases e with
  | add => cases hs; exact inv_add h
  | complete id ok => exact inv_complete h hs

theorem inv_run {n : Nat} : ∀ {evs : List Event} {s s1 : QState},
    Inv n s → run s evs = some s1 → Inv n s1 := by
  intro evs
  induction evs with
  | nil => intro s s1 h hr; cases hr; exact h
  | cons e es ih =>
    intro s s1 h hr
    simp only [run, Option.bind_eq_some] at hr
    obtain ⟨s2, hs2, hrun⟩ := hr
    exact ih (inv_step h hs2) hrun

theorem inv_init (n : Nat) : Inv n (init n) := by
  refine ⟨rfl, Nat.zero_le n, ?_, ?_⟩ <;> simp [init]

theorem inv_reachable {n : Nat} {evs : List Event} {s : QState}
    (h : run (init n) evs = some s) : Inv n s :=
  inv_run (inv_init n) h

/-- In every state satisfying the invariant the started ids are exactly
`0, 1, ..., k-1` in submission order. -/
theorem started_eq_range {n : Nat} {s : QState} (h : Inv n s) :
    s.started = List.range s.started.length := by
  obtain ⟨-, -, h3, -⟩ := h
  have hlen : s.started.length + s.queue.length = s.nextId := by
    have := congrArg List.length h3; simpa using this
  have hle : s.started.length ≤ s.nextId := by omega
  conv_lhs => rw [← List.take_left s.started s.queue, h3]
  rw [List.take_range, Nat.min_eq_left hle]

/-- C1: for every concurrency limit `N > 0` given to the `TaskQueue`
constructor and every sequence of submissions and task settlements, the
`running` counter (the number of currently running tasks, incremented when
a task starts and decremented when it settles) never exceeds `N`. -/
theorem taskQueue_concurrency_bound (n : Nat) (evs : List Event) (s : QState)
    (hn : 0 < n) (h : run (init n) evs = some s) :
    s.runningTasks.length ≤ n :=
  (inv_reachable h).2.1

theorem taskQueue_concurrency_bound_witness :
    0 < 1 ∧ (QState.mk 1 [] [1] [0, 1] [(0, true)] 2).runningTasks.length ≤ 1 :=
  ⟨Nat.one_pos,
   taskQueue_concurrency_bound 1 [.add, .add, .complete 0 true] _ Nat.one_pos (by rfl)⟩

/-- C2: the scheduler is strict FIFO.  Task ids are assigned in submission
order, and whenever a task `b` has been started, every task `a` submitted
earlier (`a < b`) has also been started and occupies an earlier position
in the start order: `runNext` always dequeues the head of the queue and
never skips or reorders entries. -/
theorem taskQueue_fifo (n : Nat) (evs : List Event) (s : QState) (a b : Nat)
    (h : run (init n) evs = some s) (hab : a < b) (hb : b ∈ s.started) :
    a ∈ s.started ∧
      ∃ i j : Nat, i < j ∧ s.started[i]? = some a ∧ s.started[j]? = some b := by
  have hr := started_eq_range (inv_reachable h)
  rw [hr] at hb ⊢
  have hblt : b < s.started.length := List.mem_range.mp hb
  have halt : a < s.started.length := lt_trans hab hblt
  exact ⟨List.mem_range.mpr halt, a, b, hab,
    List.getElem?_range halt, List.getElem?_range hblt⟩

theorem taskQueue_fifo_witness :
    0 ∈ (QState.mk 1 [] [1] [0, 1] [(0, true)] 2).started ∧
      ∃ i j : Nat, i < j ∧
        (QState.mk 1 [] [1] [0, 1] [(0, true)] 2).started[i]? = some 0 ∧
        (QState.mk 1 [] [1] [0, 1] [(0, true)] 2).started[j]? = some 1 :=
  taskQueue_fifo 1 [.add, .add, .complete 0 true] _ 0 1 (by rfl) (by decide) (by decide)

/-- C3: each settlement delivers the outcome of its task to that task's
promise exactly once: the settlement record never mentions the same task
twice (no double delivery), and every settled task is one that was
actually started.  A settlement event is only enabled for a currently
running task and simultaneously resolves (on success) or rejects (on
failure) that task's promise, so no started task that completes is
dropped. -/
theorem taskQueue_settle_once (n : Nat) (evs : List Event) (s : QState)
    (h : run (init n) evs = some s) :
    (s.settled.map Prod.fst).Nodup ∧ ∀ p ∈ s.settled, p.1 ∈ s.started := by
  have inv := inv_reachable h
  have hnodup : s.started.Nodup := by
    rw [started_eq_range inv]; exact List.nodup_range _
  have hperm := inv.2.2.2
  have h2 : (s.runningTasks ++ s.settled.map Prod.fst).Nodup :=
    (hperm.nodup_iff).mpr hnodup
  refine ⟨h2.of_append_right, ?_⟩
  intro p hp
  exact hperm.mem_iff.mp (List.mem_append_right _ (List.mem_map_of_mem Prod.fst hp))

theorem taskQueue_settle_once_witness :
    ((QState.mk 1 [] [1] [0, 1] [(0, true)] 2).settled.map Prod.fst).Nodup ∧
      ∀ p ∈ (QState.mk 1 [] [1] [0, 1] [(0, true)] 2).settled,
        p.1 ∈ (QState.mk 1 [] [1] [0, 1] [(0, true)] 2).started :=
  taskQueue_settle_once 1 [.add, .add, .complete 0 true] _ (by rfl)

end TQ

/-!
Embedding of `src/uploadService.ts` and `src/shopifyService.ts`.

The two Shopify GraphQL mutations, the HTTP fetches, the filesystem, the
`sharp` transcoder, base64 decoding and the Node `path` library are
external effects; they are modelled by an environment `Env` whose fields
give the observed response of each external call.  JS strings are Lean
`String`s; string primitives (`startsWith`, `split`, `includes`) are
evaluated over the character list `String.data`.  A run of a function
returns its result (`Except Err α` models return value vs thrown
exception) together with the ordered list of external protocol calls it
issued (`CallEvent`), which is what the end-to-end claims observe.
-/

namespace Upload

/-- An HTTP response as observed through `node-fetch`: `ok`, `status`,
the `content-type` header (absent modelled as `none`) and the body
bytes. -/
structure FetchResponse where
  ok : Bool
  status : Nat
  contentType : Option String
  body : List Nat
deriving Repr, DecidableEq

/-- `StagedTarget` from `shopifyService.ts`. -/
structure StagedTarget where
  url : String
  resourceUrl : String
  parameters : List (String × String)
deriving Repr, DecidableEq

/-- `StagedUploadsCreate` from `shopifyService.ts`: both fields are
optional in the JSON. -/
structure StagedUploadsCreate where
  userErrors : Option (List (String × String))
  stagedTargets : Option (List StagedTarget)
deriving Repr, DecidableEq

structure StagedData where
  stagedUploadsCreate : Option StagedUploadsCreate
deriving Repr, DecidableEq

/-- `StagedUploadsResponse` from `shopifyService.ts`. -/
structure StagedUploadsResponse where
  data : Option StagedData
deriving Repr, DecidableEq

structure ProductCreateMedia where
  mediaUserErrors : Option (List (String × String))
deriving Repr, DecidableEq

structure ProductCreateMediaData where
  productCreateMedia : Option ProductCreateMedia
deriving Repr, DecidableEq

/-- `ProductCreateMediaResponse` from `shopifyService.ts`. -/
structure ProductCreateMediaResponse where
  data : Option ProductCreateMediaData
deriving Repr, DecidableEq

/-- The environment of external effects one attempt runs against. -/
structure Env where
  fileExists : String → Bool
  readFile : String → List Nat
  validUrl : String → Bool
  headResp : String → FetchResponse
  getResp : String → FetchResponse
  base64Decode : List Char → List Nat
  convertToJpeg : List Nat → List Nat
  baseNameNoExt : String → String
  stagedResp : StagedUploadsResponse
  uploadResp : String → FetchResponse
  attachResp : ProductCreateMediaResponse
  now : Nat

/-- One external protocol call, in the order issued. -/
inductive CallEvent where
  | decodeInline
  | readLocalFile (path : String)
  | headFetch (url : String)
  | getFetch (url : String)
  | stagedCreate
  | stagedPost (url : String)
  | attach (resourceUrl productId alt : String)
deriving Repr, DecidableEq

/-- The distinct `throw new Error(...)` sites of the two services. -/
inductive Err where
  | stagedUploadError
  | invalidResponse
  | noStagedTarget
  | fileUploadFailed (status : Nat)
  | urlNotAccessible
  | notAnImage (contentType : String)
  | downloadFailed
  | invalidInput
  | noResourceUrl
  | attachFailed
  | productCreateMediaError
deriving Repr, DecidableEq

/-- JS `s.startsWith(pre)`, evaluated over character lists. -/
def strStartsWith (s pre : String) : Bool := pre.data.isPrefixOf s.data

/-- `isBase64Image` from `uploadService.ts`. -/
def isBase64Image (input : String) : Bool := strStartsWith input ("data:image/")

/-- JS `s.split(',')` on character lists. -/
def splitOnComma : List Char → List Char → List (List Char)
  | [], acc => [acc.reverse]
  | c :: cs, acc =>
    if c = ',' then acc.reverse :: splitOnComma cs [] else splitOnComma cs (c :: acc)

/-- `base64ToBuffer` from `uploadService.ts`: strip everything up to the
first comma when one is present, then base64-decode. -/
def base64ToBuffer (env : Env) (data : String) : List Nat :=
  if data.data.contains (',') then
    env.base64Decode ((splitOnComma data.data []).getD 1 [])
  else
    env.base64Decode data.data

/-- The first guard of `uploadMedia`:
`json.data?.stagedUploadsCreate?.userErrors && userErrors.length > 0`. -/
def userErrorsNonempty (r : StagedUploadsResponse) : Bool :=
  match r.data with
  | none => false
  | some d =>
    match d.stagedUploadsCreate with
    | none => false
    | some c =>
      match c.userErrors with
      | none => false
      | some es => decide (0 < es.length)

/-- The `stagedTargets` list of the phase-1 response, when the whole
`data.stagedUploadsCreate.stagedTargets` path is present. -/
def stagedTargetsField (r : StagedUploadsResponse) : Option (List StagedTarget) :=
  (r.data.bind StagedData.stagedUploadsCreate).bind StagedUploadsCreate.stagedTargets

/-- The staged target `uploadMedia` uses: `stagedTargets[0]`. -/
def firstStagedTarget (r : StagedUploadsResponse) : Option StagedTarget :=
  (stagedTargetsField r).bind List.head?

/-- `uploadMedia` from `shopifyService.ts`: call `stagedUploadsCreate`
(phase 1), fail on a non-empty user-error list, on a missing
`data`/`stagedUploadsCreate`/`stagedTargets` path or on a missing first
target, then POST the multipart form to the staged URL (phase 2), fail on
a non-success status, and return the target's `resourceUrl`. -/
def uploadMedia (env : Env) (imageBuffer : List Nat) (filename mimeType : String) :
    Except Err String × List CallEvent :=
  let json := env.stagedResp
  if userErrorsNonempty json then
    (.error .stagedUploadError, [.stagedCreate])
  else
    match stagedTargetsField json with
    | none => (.error .invalidResponse, [.stagedCreate])
    | some targets =>
      match targets.head? with
      | none => (.error .noStagedTarget, [.stagedCreate])
      | some target =>
        let up := env.uploadResp target.url
        if up.ok then
          (.ok target.resourceUrl, [.stagedCreate, .stagedPost target.url])
        else
          (.error (.fileUploadFailed up.status), [.stagedCreate, .stagedPost target.url])

/-- The guard of `attachImageToProduct`:
`json.data?.productCreateMedia?.mediaUserErrors && length > 0`. -/
def mediaUserErrorsNonempty (r : ProductCreateMediaResponse) : Bool :=
  match r.data with
  | none => false
  | some d =>
    match d.productCreateMedia with
    | none => false
    | some m =>
      match m.mediaUserErrors with
      | none => false
      | some es => decide (0 < es.length)

/-- `attachImageToProduct` from `shopifyService.ts`: call
`productCreateMedia` (phase 3), throw on a non-empty media-user-error
list, otherwise return `true`. -/
def attachImageToProduct (env : Env) (resourceUrl productId alt : String) :
    Except Err Bool × List CallEvent :=
  if mediaUserErrorsNonempty env.attachResp then
    (.error .productCreateMediaError, [.attach resourceUrl productId alt])
  else
    (.ok true, [.attach resourceUrl productId alt])

/-- The tail of `processImageUpload` after a branch has produced
`resourceUrl`: the falsy-check on `resourceUrl` (a JS string is falsy
exactly when empty), the attach call, and the `if (!attached)` check. -/
def afterResource (env : Env) (resourceUrl productId alt : String) :
    Except Err Unit × List CallEvent :=
  if resourceUrl.data.isEmpty then (.error .noResourceUrl, [])
  else
    match attachImageToProduct env resourceUrl productId alt with
    | (.error e, tr) => (.error e, tr)
    | (.ok attached, tr) =>
      if attached then (.ok (), tr) else (.error .attachFailed, tr)

/-- The common tail shared verbatim by the three acquisition branches of
`processImageUpload`: call `uploadMedia` on the transcoded buffer with
`mimeType = "image/jpeg"` and, when it returns a `resourceUrl`, run the
falsy-check and the attach step (`afterResource`).  A thrown error
propagates. -/
def uploadAndAttach (env : Env) (jpegBuffer : List Nat)
    (filename productId alt : String) : Except Err Unit × List CallEvent :=
  match uploadMedia env jpegBuffer filename ("image/jpeg") with
  | (.error e, tr) => (.error e, tr)
  | (.ok r, tr) =>
    let res := afterResource env r productId alt
    (res.1, tr ++ res.2)

/-- `processImageUpload` from `uploadService.ts`. -/
def processImageUpload (env : Env) (input productId alt : String) :
    Except Err Unit × List CallEvent :=
  if isBase64Image input then
    let imageBuffer := base64ToBuffer env input
    let jpegBuffer := env.convertToJpeg imageBuffer
    let filename := "upload_" ++ toString env.now ++ ".jpg"
    let p := uploadAndAttach env jpegBuffer filename productId alt
    (p.1, .decodeInline :: p.2)
  else if env.fileExists input then
    let imageBuffer := env.readFile input
    let jpegBuffer := env.convertToJpeg imageBuffer
    let filename := env.baseNameNoExt input ++ ".jpg"
    let p := uploadAndAttach env jpegBuffer filename productId alt
    (p.1, .readLocalFile input :: p.2)
  else if env.validUrl input then
    let h := env.headResp input
    if !h.ok then (.error .urlNotAccessible, [.headFetch input])
    else
      let contentType := (h.contentType).getD ("")
      if !(strStartsWith contentType ("image/")) then
        (.error (.notAnImage contentType), [.headFetch input])
      else
        let g := env.getResp input
        if !g.ok then (.error .downloadFailed, [.headFetch input, .getFetch input])
        else
          let jpegBuffer := env.convertToJpeg g.body
          let filename := "upload_" ++ toString env.now ++ ".jpg"
          let p := uploadAndAttach env jpegBuffer filename productId alt
          (p.1, .headFetch input :: .getFetch input :: p.2)
  else
    (.error .invalidInput, [])

/-- The classification of an input, read off as the first external action
the corresponding branch of `processImageUpload` performs: inline decode,
local file read, metadata probe, or nothing (rejected input). -/
def firstAction (env : Env) (input : String) : Option CallEvent :=
  if isBase64Image input then some .decodeInline
  else if env.fileExists input then some (.readLocalFile input)
  else if env.validUrl input then some (.headFetch input)
  else none

/-- The retry loop inside the task built by `enqueueImageUpload`:
`while (attempts < maxAttempts)` with `attempts++` and a try/catch around
`processImageUpload`; on success it returns, on failure it returns once
`attempts >= maxAttempts` and otherwise loops.  `fuel` is
`maxAttempts - attempts`, so the loop guard `attempts < maxAttempts` is
`fuel > 0` and the exit test `attempts >= maxAttempts` after the
increment is `fuel = 1`.  `envs k` is the environment attempt `k` runs
against.  The returned pair is (number of attempts made, whether the last
attempt succeeded); the function is total: the task never re-raises, so
its promise always resolves. -/
def attemptLoop (envs : Nat → Env) (input productId alt : String) :
    Nat → Nat → Nat × Bool
  | 0, attempts => (attempts, false)
  | fuel + 1, attempts =>
    let attempts1 := attempts + 1
    match (processImageUpload (envs attempts1) input productId alt).1 with
    | .ok _ => (attempts1, true)
    | .error _ =>
      if fuel = 0 then (attempts1, false)
      else attemptLoop envs input productId alt fuel attempts1

/-- The task built by `enqueueImageUpload`: the retry loop with
`maxAttempts = 2` starting from `attempts = 0`. -/
def ingestTask (envs : Nat → Env) (input productId alt : String) : Nat × Bool :=
  attemptLoop envs input productId alt 2 0

/-- An environment in which every external lookup fails: no file exists,
no string is a valid URL, every fetch fails, and the provider responses
are empty. -/
def envNone : Env where
  fileExists := fun _ => false
  readFile := fun _ => []
  validUrl := fun _ => false
  headResp := fun _ => ⟨false, 404, none, []⟩
  getResp := fun _ => ⟨false, 404, none, []⟩
  base64Decode := fun _ => []
  convertToJpeg := fun b => b
  baseNameNoExt := fun s => s
  stagedResp := ⟨none⟩
  uploadResp := fun _ => ⟨false, 500, none, []⟩
  attachResp := ⟨none⟩
  now := 0

/-- A concrete staged target. -/
def goodTarget : StagedTarget :=
  ⟨"https://staged.example/upload", "https://cdn.example/resource", [("key", "value")]⟩

/-- A phase-1 response carrying no user errors and one staged target. -/
def goodStagedResp : StagedUploadsResponse :=
  ⟨some ⟨some ⟨none, some [goodTarget]⟩⟩⟩

/-- An environment in which a local-file ingestion fully succeeds. -/
def envSuccess : Env :=
  { envNone with
    fileExists := fun _ => true
    readFile := fun _ => [1, 2, 3]
    stagedResp := goodStagedResp
    uploadResp := fun _ => ⟨true, 200, none, []⟩ }

/-- Like `envSuccess` but the phase-2 POST returns a non-success
status. -/
def envPhase2Fail : Env :=
  { envSuccess with uploadResp := fun _ => ⟨false, 500, none, []⟩ }

/-- An environment in which every string parses as a URL but the HEAD
probe fails. -/
def envBadProbe : Env :=
  { envNone with validUrl := fun _ => true }

/-- Exhaustive case analysis of `uploadMedia`: the phase-1 user-error
check, the missing-target checks, and the phase-2 status check, each with
the exact result and protocol trace. -/
theorem uploadMedia_master (env : Env) (buf : List Nat) (fn mt : String) :
    (userErrorsNonempty env.stagedResp = true ∧
      uploadMedia env buf fn mt = (.error .stagedUploadError, [.stagedCreate])) ∨
    (userErrorsNonempty env.stagedResp = false ∧
      firstStagedTarget env.stagedResp = none ∧
      (uploadMedia env buf fn mt = (.error .invalidResponse, [.stagedCreate]) ∨
       uploadMedia env buf fn mt = (.error .noStagedTarget, [.stagedCreate]))) ∨
    (∃ t, userErrorsNonempty env.stagedResp = false ∧
      firstStagedTarget env.stagedResp = some t ∧
      ((env.uploadResp t.url).ok = true ∧
         uploadMedia env buf fn mt =
           (.ok t.resourceUrl, [.stagedCreate, .stagedPost t.url]) ∨
       (env.uploadResp t.url).ok = false ∧
         uploadMedia env buf fn mt =
           (.error (.fileUploadFailed (env.uploadResp t.url).status),
            [.stagedCreate, .stagedPost t.url]))) := by
  cases hu : userErrorsNonempty env.stagedResp
  · rcases hst : stagedTargetsField env.stagedResp with _ | targets
    · refine Or.inr (Or.inl ⟨rfl, ?_, Or.inl ?_⟩)
      · simp [firstStagedTarget, hst]
      · simp [uploadMedia, hu, hst]
    · rcases hh : targets.head? with _ | t
      · refine Or.inr (Or.inl ⟨rfl, ?_, Or.inr ?_⟩)
        · simp [firstStagedTarget, hst, hh]
        · simp [uploadMedia, hu, hst, hh]
      · cases hok : (env.uploadResp t.url).ok
        · refine Or.inr (Or.inr ⟨t, rfl, ?_, Or.inr ⟨hok, ?_⟩⟩)
          · simp [firstStagedTarget, hst, hh]
          · simp [uploadMedia, hu, hst, hh, hok]
        · refine Or.inr (Or.inr ⟨t, rfl, ?_, Or.inl ⟨hok, ?_⟩⟩)
          · simp [firstStagedTarget, hst, hh]
          · simp [uploadMedia, hu, hst, hh, hok]
  · refine Or.inl ⟨rfl, ?_⟩
    simp [uploadMedia, hu]

/-- A thrown `uploadMedia` error is one of its four `throw` sites. -/
theorem uploadMedia_error_forms (env : Env) (buf : List Nat) (fn mt : String)
    (e : Err) (h : (uploadMedia env buf fn mt).1 = .error e) :
    e = .stagedUploadError ∨ e = .invalidResponse ∨ e = .noStagedTarget ∨
      ∃ st, e = .fileUploadFailed st := by
  rcases uploadMedia_master env buf fn mt with
    ⟨-, heq⟩ | ⟨-, -, heq | heq⟩ | ⟨t, -, -, ⟨-, heq⟩ | ⟨-, heq⟩⟩ <;>
    rw [heq] at h <;> simp_all
  exact Or.inr (Or.inr (Or.inr ⟨_, h.symm⟩))

/-- A successful `uploadMedia` returns the first staged target's
`resourceUrl` and has issued exactly phase 1 followed by phase 2. -/
theorem uploadMedia_ok_eq (env : Env) (buf : List Nat) (fn mt : String)
    (r : String) (tr : List CallEvent)
    (h : uploadMedia env buf fn mt = (.ok r, tr)) :
    ∃ t, firstStagedTarget env.stagedResp = some t ∧ r = t.resourceUrl ∧
      tr = [.stagedCreate, .stagedPost t.url] := by
  rcases uploadMedia_master env buf fn mt with
    ⟨-, heq⟩ | ⟨-, -, heq | heq⟩ | ⟨t, -, ht, ⟨-, heq⟩ | ⟨-, heq⟩⟩ <;>
    rw [heq] at h <;> simp_all

/-- `afterResource` yields success, the empty-`resourceUrl` error, or the
phase-3 user-error failure; its trace is the attach call unless the
falsy-check fired. -/
theorem afterResource_cases (env : Env) (r productId alt : String) :
    afterResource env r productId alt = (.error .noResourceUrl, []) ∨
    afterResource env r productId alt =
      (.error .productCreateMediaError, [.attach r productId alt]) ∨
    afterResource env r productId alt = (.ok (), [.attach r productId alt]) := by
  cases he : r.data.isEmpty
  · cases hm : mediaUserErrorsNonempty env.attachResp
    · exact Or.inr (Or.inr (by simp [afterResource, attachImageToProduct, he, hm]))
    · exact Or.inr (Or.inl (by simp [afterResource, attachImageToProduct, he, hm]))
  · exact Or.inl (by simp [afterResource, he])

/-- The upload-then-attach tail never throws the classification error and
never throws the dead `attachFailed` error. -/
theorem uploadAndAttach_ne (env : Env) (buf : List Nat)
    (fn productId alt : String) :
    (uploadAndAttach env buf fn productId alt).1 ≠ .error .invalidInput ∧
    (uploadAndAttach env buf fn productId alt).1 ≠ .error .attachFailed := by
  unfold uploadAndAttach
  rcases hup : uploadMedia env buf fn ("image/jpeg") with ⟨res, tr⟩
  cases res with
  | error e =>
    rcases uploadMedia_error_forms env buf fn ("image/jpeg") e (by rw [hup]) with
      h | h | h | ⟨st, h⟩ <;> subst h <;> simp
  | ok r =>
    rcases afterResource_cases env r productId alt with h | h | h <;> simp [h]

/-- The success form of the upload-then-attach tail: the trace is exactly
phase 1, phase 2 and phase 3, with the first staged target's
`resourceUrl` passed unchanged into the attach call. -/
theorem uploadAndAttach_ok (env : Env) (buf : List Nat)
    (fn productId alt : String)
    (h : (uploadAndAttach env buf fn productId alt).1 = .ok ()) :
    ∃ t, firstStagedTarget env.stagedResp = some t ∧
      uploadAndAttach env buf fn productId alt =
        (.ok (), [.stagedCreate, .stagedPost t.url,
                  .attach t.resourceUrl productId alt]) := by
  unfold uploadAndAttach at h ⊢
  rcases hup : uploadMedia env buf fn ("image/jpeg") with ⟨res, tr⟩
  rw [hup] at h
  cases res with
  | error e => simp at h
  | ok r =>
    obtain ⟨t, ht, hr, htr⟩ := uploadMedia_ok_eq env buf fn ("image/jpeg") r tr hup
    refine ⟨t, ht, ?_⟩
    subst hr
    rcases afterResource_cases env t.resourceUrl productId alt with ha | ha | ha <;>
      simp [ha, htr] at h ⊢

/-- The first external action of `processImageUpload` is determined by the
classification chain. -/
theorem processImageUpload_head (env : Env) (input productId alt : String) :
    (processImageUpload env input productId alt).2.head? = firstAction env input := by
  unfold processImageUpload firstAction
  split
  · rfl
  · split
    · rfl
    · split
      · dsimp only
        split
        · rfl
        · split
          · rfl
          · split
            · rfl
            · rfl
      · rfl

/-- `processImageUpload` throws the `Invalid input format` error exactly
when the classification chain rejects the input. -/
theorem processImageUpload_invalid_iff (env : Env) (input productId alt : String) :
    (processImageUpload env input productId alt).1 = .error .invalidInput ↔
      firstAction env input = none := by
  unfold processImageUpload firstAction
  split
  · exact iff_of_false (uploadAndAttach_ne env _ _ productId alt).1 (by simp)
  · split
    · exact iff_of_false (uploadAndAttach_ne env _ _ productId alt).1 (by simp)
    · split
      · dsimp only
        split
        · exact iff_of_false (by simp) (by simp)
        · split
          · exact iff_of_false (by simp) (by simp)
          · split
            · exact iff_of_false (by simp) (by simp)
            · exact iff_of_false (uploadAndAttach_ne env _ _ productId alt).1 (by simp)
      · exact iff_of_true rfl rfl

/-- Two consecutive failing attempts drive the retry loop of
`enqueueImageUpload` to its attempt budget: the task makes exactly two
attempts and then returns normally with no error re-raised. -/
theorem ingest_two_failures (envs : Nat → Env) (input productId alt : String)
    (e1 e2 : Err)
    (h1 : (processImageUpload (envs 1) input productId alt).1 = .error e1)
    (h2 : (processImageUpload (envs 2) input productId alt).1 = .error e2) :
    ingestTask envs input productId alt = (2, false) := by
  have step1 : ingestTask envs input productId alt =
      (match (processImageUpload (envs 1) input productId alt).1 with
       | .ok _ => (1, true)
       | .error _ => attemptLoop envs input productId alt 1 1) := rfl
  have step2 : attemptLoop envs input productId alt 1 1 =
      (match (processImageUpload (envs 2) input productId alt).1 with
       | .ok _ => (2, true)
       | .error _ => (2, false)) := rfl
  rw [step1, h1]
  simp only []
  rw [step2, h2]

/-- C4: `processImageUpload` classifies its input by exact precedence
with first match winning: (1) an input starting with the inline-image
marker is handled by the inline branch (first external action: inline
decode); (2) otherwise an existing local file is handled by the file
branch (first action: local read); (3) otherwise a syntactically valid
URL is handled by the remote branch (first action: HEAD probe);
(4) otherwise the input is rejected with the unsupported-input error and
no external action occurs.  `firstAction` is that precedence chain; the
branch actually executed starts with exactly that action, and the
unsupported-input rejection happens exactly in the fourth case. -/
theorem processImageUpload_classification (env : Env) (input productId alt : String) :
    (processImageUpload env input productId alt).2.head? = firstAction env input ∧
    ((processImageUpload env input productId alt).1 = .error .invalidInput ↔
      firstAction env input = none) :=
  ⟨processImageUpload_head env input productId alt,
   processImageUpload_invalid_iff env input productId alt⟩

theorem processImageUpload_classification_witness :
    (processImageUpload envNone ("nonsense") ("p") ("a")).1 = .error .invalidInput :=
  (processImageUpload_classification envNone ("nonsense") ("p") ("a")).2.mpr (by decide)

/-- C5 counterexample: an input the classifier rejects (not inline, not
an existing file, not a valid URL) is nevertheless attempted twice by the
task built in `enqueueImageUpload` — the retry loop has no special case
for the classification-time unsupported-input failure, so the claimed
single attempt is false: the attempt counter reaches 2, not 1. -/
theorem ingest_unrecognized_single_attempt_cex :
    firstAction envNone ("nonsense") = none ∧
    (ingestTask (fun _ => envNone) ("nonsense") ("p") ("a")).1 = 2 :=
  ⟨by decide, by decide⟩

/-- C5 (amended): a unit of work whose input is classified as
unrecognized on both attempts makes exactly two attempts — the
unsupported-input failure is retried once like every other failure — and
then returns normally without surfacing the error. -/
theorem ingest_unrecognized_two_attempts (envs : Nat → Env)
    (input productId alt : String)
    (h1 : firstAction (envs 1) input = none)
    (h2 : firstAction (envs 2) input = none) :
    ingestTask envs input productId alt = (2, false) :=
  ingest_two_failures envs input productId alt .invalidInput .invalidInput
    ((processImageUpload_invalid_iff (envs 1) input productId alt).mpr h1)
    ((processImageUpload_invalid_iff (envs 2) input productId alt).mpr h2)

theorem ingest_unrecognized_two_attempts_witness :
    ingestTask (fun _ => envNone) ("nonsense") ("p") ("a") = (2, false) :=
  ingest_unrecognized_two_attempts (fun _ => envNone) ("nonsense") ("p") ("a")
    (by decide) (by decide)

/-- C6: when both attempts of a unit of work fail (with any failure,
e.g. a phase-2 non-success status), the task calls `processImageUpload`
exactly twice and then terminates by returning normally: the attempt
count is 2 and the failure is not re-raised, so the promise the engine
returns for this unit resolves rather than rejects (`ingestTask` is a
total function into `Nat × Bool`; no error escapes it). -/
theorem ingest_failure_two_attempts (envs : Nat → Env)
    (input productId alt : String) (e1 e2 : Err)
    (h1 : (processImageUpload (envs 1) input productId alt).1 = .error e1)
    (h2 : (processImageUpload (envs 2) input productId alt).1 = .error e2) :
    ingestTask envs input productId alt = (2, false) :=
  ingest_two_failures envs input productId alt e1 e2 h1 h2

theorem ingest_failure_two_attempts_witness :
    ingestTask (fun _ => envPhase2Fail) ("photo.png") ("gid://1") ("Image") = (2, false) :=
  ingest_failure_two_attempts (fun _ => envPhase2Fail) ("photo.png") ("gid://1") ("Image")
    (.fileUploadFailed 500) (.fileUploadFailed 500) (by rfl) (by rfl)

/-- C7: for an input classified as a remote URL, if the HEAD probe does
not succeed or reports a content type that does not start with
`image/`, the attempt throws (`URL not accessible` or `URL did not
return an image`) and the GET retrieval of the body is never issued. -/
theorem remote_probe_failure_skips_get (env : Env) (input productId alt : String)
    (hb : isBase64Image input = false) (hf : env.fileExists input = false)
    (hv : env.validUrl input = true)
    (hbad : (env.headResp input).ok = false ∨
      strStartsWith ((env.headResp input).contentType.getD ("")) ("image/") = false) :
    (∃ e, (processImageUpload env input productId alt).1 = .error e ∧
       (e = .urlNotAccessible ∨
        e = .notAnImage ((env.headResp input).contentType.getD ("")))) ∧
    CallEvent.getFetch input ∉ (processImageUpload env input productId alt).2 := by
  have hres : processImageUpload env input productId alt =
      (if !(env.headResp input).ok then
        (.error .urlNotAccessible, [.headFetch input])
      else
        (.error (.notAnImage ((env.headResp input).contentType.getD (""))),
         [.headFetch input])) := by
    unfold processImageUpload
    rcases hbad with hok | hct
    · simp [hb, hf, hv, hok]
    · cases hok : (env.headResp input).ok
      · simp [hb, hf, hv, hok]
      · simp [hb, hf, hv, hok, hct]
  rw [hres]
  cases hok : (env.headResp input).ok <;> simp [hok]

theorem remote_probe_failure_skips_get_witness :
    (∃ e, (processImageUpload envBadProbe ("https://img.example/x") ("p") ("a")).1 =
        .error e ∧
       (e = .urlNotAccessible ∨
        e = .notAnImage
          ((envBadProbe.headResp ("https://img.example/x")).contentType.getD ("")))) ∧
    CallEvent.getFetch ("https://img.example/x") ∉
      (processImageUpload envBadProbe ("https://img.example/x") ("p") ("a")).2 :=
  remote_probe_failure_skips_get envBadProbe ("https://img.example/x") ("p") ("a")
    (by decide) (by decide) (by decide) (Or.inl (by decide))

/-- C8: a successful local-file ingestion performs exactly one phase-1
call, one phase-2 call and one phase-3 call, in that order after the
file read, and the `resourceUrl` of the staged target returned by
phase 1 (the value `uploadMedia` returns) is passed unchanged as the
resource-reference argument of the attach call. -/
theorem local_file_success_three_phases (env : Env) (input productId alt : String)
    (hb : isBase64Image input = false) (hf : env.fileExists input = true)
    (hok : (processImageUpload env input productId alt).1 = .ok ()) :
    ∃ t, firstStagedTarget env.stagedResp = some t ∧
      (processImageUpload env input productId alt).2 =
        [.readLocalFile input, .stagedCreate, .stagedPost t.url,
         .attach t.resourceUrl productId alt] := by
  have hbranch : processImageUpload env input productId alt =
      ((uploadAndAttach env (env.convertToJpeg (env.readFile input))
          (env.baseNameNoExt input ++ ".jpg") productId alt).1,
       .readLocalFile input ::
         (uploadAndAttach env (env.convertToJpeg (env.readFile input))
            (env.baseNameNoExt input ++ ".jpg") productId alt).2) := by
    unfold processImageUpload
    simp [hb, hf]
  rw [hbranch] at hok ⊢
  obtain ⟨t, ht, heq⟩ := uploadAndAttach_ok env _ _ productId alt hok
  exact ⟨t, ht, by rw [heq]⟩

theorem local_file_success_three_phases_witness :
    ∃ t, firstStagedTarget envSuccess.stagedResp = some t ∧
      (processImageUpload envSuccess ("photo.png") ("gid://1") ("Image")).2 =
        [.readLocalFile ("photo.png"), .stagedCreate, .stagedPost t.url,
         .attach t.resourceUrl ("gid://1") ("Image")] :=
  local_file_success_three_phases envSuccess ("photo.png") ("gid://1") ("Image")
    (by decide) (by decide) (by rfl)

/-- C9: `uploadMedia` throws exactly when the phase-1 response carries a
non-empty user-error list, or no staged target can be extracted from it
(missing `data`/`stagedUploadsCreate`/`stagedTargets` path or empty
target list), or the phase-2 POST to the staged URL has a non-success
status; in every other case it returns the staged target's
`resourceUrl`. -/
theorem uploadMedia_failure_characterization (env : Env) (imageBuffer : List Nat)
    (filename mimeType : String) :
    ((∃ e, (uploadMedia env imageBuffer filename mimeType).1 = .error e) ↔
      (userErrorsNonempty env.stagedResp = true ∨
       firstStagedTarget env.stagedResp = none ∨
       ∃ t, firstStagedTarget env.stagedResp = some t ∧
         (env.uploadResp t.url).ok = false)) ∧
    (∀ t, userErrorsNonempty env.stagedResp = false →
       firstStagedTarget env.stagedResp = some t →
       (env.uploadResp t.url).ok = true →
       (uploadMedia env imageBuffer filename mimeType).1 = .ok t.resourceUrl) := by
  rcases uploadMedia_master env imageBuffer filename mimeType with
    ⟨hu, heq⟩ | ⟨hu, ht, heq | heq⟩ | ⟨t, hu, ht, ⟨hok, heq⟩ | ⟨hok, heq⟩⟩
  · refine ⟨iff_of_true ⟨_, by rw [heq]⟩ (Or.inl hu), ?_⟩
    intro t' hu' _ _
    rw [hu] at hu'; cases hu'
  · refine ⟨iff_of_true ⟨_, by rw [heq]⟩ (Or.inr (Or.inl ht)), ?_⟩
    intro t' _ ht' _
    rw [ht] at ht'; cases ht'
  · refine ⟨iff_of_true ⟨_, by rw [heq]⟩ (Or.inr (Or.inl ht)), ?_⟩
    intro t' _ ht' _
    rw [ht] at ht'; cases ht'
  · constructor
    · apply iff_of_false
      · rintro ⟨e, he⟩
        rw [heq] at he; cases he
      · rintro (h | h | ⟨t', ht', hok'⟩)
        · rw [hu] at h; cases h
        · rw [ht] at h; cases h
        · rw [ht] at ht'
          injection ht' with h''
          subst h''
          rw [hok] at hok'; cases hok'
    · intro t' _ ht' _
      rw [ht] at ht'
      injection ht' with h''
      subst h''
      rw [heq]
  · refine ⟨iff_of_true ⟨_, by rw [heq]⟩ (Or.inr (Or.inr ⟨t, ht, hok⟩)), ?_⟩
    intro t' _ ht' hok'
    rw [ht] at ht'
    injection ht' with h''
    subst h''
    rw [hok] at hok'; cases hok'

theorem uploadMedia_failure_characterization_witness :
    (uploadMedia envSuccess [] ("f.jpg") ("image/jpeg")).1 =
      .ok (goodTarget.resourceUrl) :=
  (uploadMedia_failure_characterization envSuccess [] ("f.jpg") ("image/jpeg")).2
    goodTarget (by decide) (by decide) (by decide)

/-- C10: `attachImageToProduct` either throws (non-empty media-user-error
list) or resolves to `true`; it never resolves to `false`, so the
`Failed to attach image to product` branch of `processImageUpload` that
tests for a falsy return value can never fire. -/
theorem attach_never_false :
    (∀ (env : Env) (resourceUrl productId alt : String),
       (attachImageToProduct env resourceUrl productId alt).1 ≠ .ok false) ∧
    (∀ (env : Env) (input productId alt : String),
       (processImageUpload env input productId alt).1 ≠ .error .attachFailed) := by
  constructor
  · intro env r p a
    unfold attachImageToProduct
    cases hm : mediaUserErrorsNonempty env.attachResp <;> simp [hm]
  · intro env input p a
    unfold processImageUpload
    split
    · exact (uploadAndAttach_ne env _ _ p a).2
    · split
      · exact (uploadAndAttach_ne env _ _ p a).2
      · split
        · dsimp only
          split
          · simp
          · split
            · simp
            · split
              · simp
              · exact (uploadAndAttach_ne env _ _ p a).2
        · simp

theorem attach_never_false_witness :
    (attachImageToProduct envNone ("r") ("p") ("a")).1 ≠ .ok false :=
  attach_never_false.1 envNone ("r") ("p") ("a")

end Upload
